import Mathlib

/-!
Shallow embedding of the core of the OpenVPN data-channel offload driver
(peer registry, AEAD framing, packet-id / anti-replay machinery, keepalive
scheduler), together with proofs about the embedded operations.

Sources embedded here:
* crypto_aead.c        — ovpn_aead_encrypt / ovpn_aead_decrypt framing
* io.c                 — ovpn_decrypt_post packet-id validation slice
* proto.h              — opcode/peer-id wire-field constants and extractors
* bind.h               — ovpn_bind, ovpn_bind_skb_src_match
* peer.c               — peer registry (add/del/float/lookups) and keepalive
* packet.h             — nonce geometry (NONCE_SIZE 12, NONCE_WIRE_SIZE 4)

The packet-id generator/validator (pktid.c), the key-slot selection helpers
(crypto.c) and ovpn_bind_from_sockaddr (bind.c) are not part of the source
tree slice; definitions for them are modelled from the specification text and
are marked `Modelled from the spec:` in their doc comments.

Modelling conventions: byte strings are `List Nat` with values < 256 where it
matters; machine integers are `Nat`/`Int` with explicit bounds; kernel memory
allocation failures (-ENOMEM paths) are not modelled; the embedding is the
sequential semantics of the code (locks are elided, `kref_get_unless_zero`
always succeeds on a live object).
-/

/-! ## Byte-string helpers (htonl / ntohl as big-endian byte lists) -/

/-- Big-endian bytes of a 32-bit word, as written by `htonl` into packet
memory (`*(__be32 *)skb->data = htonl(op)`). -/
def be32 (x : Nat) : List Nat :=
  [x / 2 ^ 24 % 256, x / 2 ^ 16 % 256, x / 2 ^ 8 % 256, x % 256]

/-- The low 3 bytes of a 32-bit word in big-endian order (the 24-bit peer-id
field of the wire header). -/
def be24 (x : Nat) : List Nat :=
  [x / 2 ^ 16 % 256, x / 2 ^ 8 % 256, x % 256]

/-- `ntohl` on the first four bytes of a buffer (0 if the buffer is shorter,
a case the code prevents by `pskb_may_pull`). -/
def ntohlAt : List Nat → Nat
  | b0 :: b1 :: b2 :: b3 :: _ => ((b0 * 256 + b1) * 256 + b2) * 256 + b3
  | _ => 0

theorem ntohlAt_be32 (x : Nat) (rest : List Nat) (hx : x < 2 ^ 32) :
    ntohlAt (be32 x ++ rest) = x := by
  simp only [be32, List.cons_append, List.nil_append, ntohlAt]
  omega

/-! ## Packet-id transmit counter and anti-replay window

pktid.c is not in the source slice (crypto_aead.c and io.c only call
`ovpn_pktid_xmit_next`, `ovpn_pktid_aead_write` and `ovpn_pktid_recv`), so
this section is modelled from the specification text. -/

/-- Error taxonomy for the packet-id machinery, named as in the spec. -/
inductive OvpnPktIdError
  | replayOrTooOld
  | packetIdExhausted
  deriving DecidableEq, Repr

/-- Largest value of the 32-bit packet-id counter. -/
def u32Max : Nat := 4294967295

/-- Modelled from the spec: per key slot transmit state, a "monotonically
increasing 32-bit counter" (`packet_id_xmit`); `seq_num` is the last id
issued, 0 before any id is issued. -/
structure OvpnPktIdXmit where
  seq_num : Nat
  deriving DecidableEq, Repr

/-- Modelled from the spec: "Obtain next packet id from
`key_slot.packet_id_xmit` (strictly increasing per key slot); fails with
`PacketIdExhausted` if the 32-bit counter would wrap". On failure no id is
issued and the counter is not wrapped. -/
def ovpn_pktid_xmit_next (st : OvpnPktIdXmit) :
    OvpnPktIdXmit × Except OvpnPktIdError Nat :=
  if st.seq_num < u32Max then
    (⟨st.seq_num + 1⟩, .ok (st.seq_num + 1))
  else
    (st, .error .packetIdExhausted)

/-- Modelled from the spec: anti-replay state for one key slot, "a fixed-size
bitmap of the last N accepted packet ids relative to a high-water mark".
`hwm` is the high-water mark (0 before anything is seen), `marked` the set of
ids recorded as seen inside the window. -/
structure OvpnPktIdRecv where
  hwm : Nat
  marked : Finset Nat
  deriving DecidableEq

/-- A fresh anti-replay window: nothing seen. -/
def ovpn_pktid_recv_init : OvpnPktIdRecv := ⟨0, ∅⟩

/-- Modelled from the spec: "an id higher than the mark shifts the window
forward (marking intermediate ids as not-yet-seen) and is accepted; an id
within the window is accepted only if not already marked; an id below the
window's lower bound is rejected unconditionally". `N` is the window width
(the spec leaves the exact width open; everything below is proved for all
`N`). With mark `hwm` the representable ids are those with `hwm < id + N`. -/
def ovpn_pktid_recv (N : Nat) (st : OvpnPktIdRecv) (pid : Nat) :
    OvpnPktIdRecv × Except OvpnPktIdError Unit :=
  if st.hwm < pid then
    -- ahead of the mark: shift the window forward and accept
    (⟨pid, insert pid (st.marked.filter (fun a => pid < a + N))⟩, .ok ())
  else if pid + N ≤ st.hwm then
    -- at or below the window's lower bound: reject unconditionally
    (st, .error .replayOrTooOld)
  else if pid ∈ st.marked then
    -- inside the window but already seen: replay
    (st, .error .replayOrTooOld)
  else
    -- inside the window and new: record and accept
    ({ st with marked := insert pid st.marked }, .ok ())

/-- State after delivering a whole sequence of packet ids to the window. -/
def ovpn_pktid_recv_run (N : Nat) (st : OvpnPktIdRecv) : List Nat → OvpnPktIdRecv
  | [] => st
  | p :: ps => ovpn_pktid_recv_run N (ovpn_pktid_recv N st p).1 ps

/-- The ids a delivery sequence gets accepted, in delivery order. -/
def ovpn_pktid_recv_accepted (N : Nat) (st : OvpnPktIdRecv) :
    List Nat → List Nat
  | [] => []
  | p :: ps =>
    match ovpn_pktid_recv N st p with
    | (st2, .ok _) => p :: ovpn_pktid_recv_accepted N st2 ps
    | (st2, .error _) => ovpn_pktid_recv_accepted N st2 ps

/-- An id the window regards as consumed: at or below the mark and, when
still representable, marked. Every accepted id stays in this set forever. -/
def PktIdSeen (N : Nat) (st : OvpnPktIdRecv) (a : Nat) : Prop :=
  a ≤ st.hwm ∧ (st.hwm < a + N → a ∈ st.marked)

theorem pktidSeen_step (N : Nat) (st : OvpnPktIdRecv) (p a : Nat)
    (h : PktIdSeen N st a) : PktIdSeen N (ovpn_pktid_recv N st p).1 a := by
  obtain ⟨hle, hmem⟩ := h
  unfold PktIdSeen ovpn_pktid_recv
  split_ifs with h1 h2 h3 <;> dsimp only
  · refine ⟨by omega, fun hw => ?_⟩
    have : a ∈ st.marked := hmem (by omega)
    exact Finset.mem_insert_of_mem (Finset.mem_filter.mpr ⟨this, by omega⟩)
  · exact ⟨hle, hmem⟩
  · exact ⟨hle, hmem⟩
  · exact ⟨hle, fun hw => Finset.mem_insert_of_mem (hmem hw)⟩

theorem pktidSeen_accept (N : Nat) (st : OvpnPktIdRecv) (p : Nat)
    (h : (ovpn_pktid_recv N st p).2 = .ok ()) :
    PktIdSeen N (ovpn_pktid_recv N st p).1 p := by
  unfold PktIdSeen
  unfold ovpn_pktid_recv at h ⊢
  split_ifs at h ⊢ with h1 h2 h3 <;> dsimp only
  · exact ⟨le_refl _, fun _ => Finset.mem_insert_self _ _⟩
  · exact ⟨by omega, fun _ => Finset.mem_insert_self _ _⟩

theorem pktidSeen_reject (N : Nat) (st : OvpnPktIdRecv) (p : Nat)
    (h : PktIdSeen N st p) :
    ovpn_pktid_recv N st p = (st, .error .replayOrTooOld) := by
  obtain ⟨hle, hmem⟩ := h
  unfold ovpn_pktid_recv
  split_ifs with h1 h2 h3
  · omega
  · rfl
  · rfl
  · exact absurd (hmem (by omega)) h3

theorem pktidSeen_run (N : Nat) (st : OvpnPktIdRecv) (a : Nat) (l : List Nat)
    (h : PktIdSeen N st a) : PktIdSeen N (ovpn_pktid_recv_run N st l) a := by
  induction l generalizing st with
  | nil => exact h
  | cons p ps ih => exact ih _ (pktidSeen_step N st p a h)

theorem pktid_accepted_seen (N : Nat) (st : OvpnPktIdRecv) (p : Nat)
    (l : List Nat) (h : p ∈ ovpn_pktid_recv_accepted N st l) :
    PktIdSeen N (ovpn_pktid_recv_run N st l) p := by
  induction l generalizing st with
  | nil => simp [ovpn_pktid_recv_accepted] at h
  | cons q qs ih =>
    unfold ovpn_pktid_recv_accepted at h
    unfold ovpn_pktid_recv_run
    rcases hq : ovpn_pktid_recv N st q with ⟨st2, res⟩
    rw [hq] at h
    cases res with
    | ok u =>
      cases u
      simp only [List.mem_cons] at h
      rcases h with h | h
      · subst h
        have := pktidSeen_accept N st p (by rw [hq])
        rw [hq] at this
        exact pktidSeen_run N st2 p qs this
      · exact ih st2 h
    | error e => exact ih st2 h

theorem pktid_run_append (N : Nat) (st : OvpnPktIdRecv) (l1 l2 : List Nat) :
    ovpn_pktid_recv_run N st (l1 ++ l2) =
      ovpn_pktid_recv_run N (ovpn_pktid_recv_run N st l1) l2 := by
  induction l1 generalizing st with
  | nil => rfl
  | cons p ps ih => simpa [ovpn_pktid_recv_run] using ih (ovpn_pktid_recv N st p).1

/-! ## Wire protocol constants and field extractors (proto.h, packet.h) -/

/-- data channel V2 opcode (proto.h `OVPN_DATA_V2`). -/
def OVPN_DATA_V2 : Nat := 9

/-- size of the initial op word (proto.h `OVPN_OP_SIZE_V2`). -/
def OVPN_OP_SIZE_V2 : Nat := 4

/-- full AEAD nonce size (packet.h `NONCE_SIZE`). -/
def NONCE_SIZE : Nat := 12

/-- bytes of the nonce sent on the wire (packet.h `NONCE_WIRE_SIZE`):
nonce size minus the 8-byte nonce tail. -/
def NONCE_WIRE_SIZE : Nat := 4

/-- auth tag size set on every cipher (crypto_aead.c `AUTH_TAG_SIZE`). -/
def AUTH_TAG_SIZE : Nat := 16

/-- proto.h: extract the peer ID from packet bytes at a given offset:
`ntohl(*(__be32 *)(skb->data + offset)) & OVPN_PEER_ID_MASK` with
`OVPN_PEER_ID_MASK = 0x00FFFFFF` (written here as `% 2 ^ 24`). -/
def ovpn_peer_id_from_skb (w : List Nat) (offset : Nat) : Nat :=
  ntohlAt (w.drop offset) % 2 ^ 24

/-- Modelled from the spec: `ovpn_opcode_compose` (only its call site is in
the source slice). "1 byte combining a 5-bit opcode and 3-bit key-id,
followed by 3 bytes of peer-id (24 bits)": the op word is
`((opcode & 0x1F) << 3 | (key_id & 0x07)) << 24 | (peer_id & 0x00FFFFFF)`,
with the masks written as `%`. -/
def ovpn_opcode_compose (opcode key_id peer_id : Nat) : Nat :=
  (opcode % 32 * 8 + key_id % 8) * 2 ^ 24 + peer_id % 2 ^ 24

/-! ## The AEAD provider interface

The spec treats AEAD primitives as "assumed available from a cryptography
provider"; crypto_aead.c drives them through the kernel crypto API. A
provider is a pair of functions `enc`/`dec` over (nonce, associated data,
payload) together with the two laws the code relies on: the tag is 16 bytes
(`crypto_aead_setauthsize(aead, AUTH_TAG_SIZE)`) and decryption inverts
encryption under equal nonce and associated data. -/

structure AeadCipher where
  /-- encryption: nonce → associated data → plaintext → (ciphertext, tag). -/
  enc : List Nat → List Nat → List Nat → List Nat × List Nat
  /-- decryption: nonce → associated data → ciphertext → tag →
  plaintext, or `none` on authentication failure. -/
  dec : List Nat → List Nat → List Nat → List Nat → Option (List Nat)
  tag_len : ∀ n ad p, (enc n ad p).2.length = AUTH_TAG_SIZE
  dec_enc : ∀ n ad p, dec n ad (enc n ad p).1 (enc n ad p).2 = some p

/-- A degenerate but law-abiding provider (identity "cipher" with an
all-zero tag), used to evaluate the framing code on concrete packets. -/
def idAead : AeadCipher where
  enc := fun _ _ p => (p, List.replicate 16 0)
  dec := fun _ _ c t => if t = List.replicate 16 0 then some c else none
  tag_len := by intro n ad p; simp [AUTH_TAG_SIZE]
  dec_enc := by intro n ad p; simp

/-- One key slot (crypto.h `struct ovpn_crypto_key_slot`, fields as used by
crypto_aead.c): key id, the two cipher handles, the two nonce tails and the
packet-id state for both directions. Nonce tails are 8-byte strings. -/
structure OvpnCryptoKeySlot where
  key_id : Nat
  encrypt : AeadCipher
  decrypt : AeadCipher
  nonce_tail_xmit : List Nat
  nonce_tail_recv : List Nat
  pid_xmit : OvpnPktIdXmit
  pid_recv : OvpnPktIdRecv

/-- Error taxonomy of the embedded data path, named as in the spec. -/
inductive OvpnCryptoError
  | packetIdExhausted
  | authenticationFailed
  | replayOrTooOld
  | malformedPacket
  deriving DecidableEq, Repr

/-- crypto_aead.c `ovpn_aead_encrypt`, for a packet whose payload is
`payload` and for the peer with id `peer_id`. The sk_buff byte layout is
mirrored on byte lists: the code pushes the 16-byte tag slot, then the
4-byte wire nonce (`NONCE_WIRE_SIZE` head of the iv), then the 4-byte op
word in front of the payload, so the finished packet reads
op ‖ packet-id ‖ tag ‖ ciphertext; the AEAD runs over the payload with the
8 header bytes (op ‖ packet-id) as associated data, writing ciphertext and
tag into their slots. -/
def ovpn_aead_encrypt (peer_id : Nat) (ks : OvpnCryptoKeySlot)
    (payload : List Nat) :
    Except OvpnCryptoError (List Nat × OvpnCryptoKeySlot) :=
  -- obtain packet ID (first 4 bytes of nonce, last 4 bytes of AD)
  match ovpn_pktid_xmit_next ks.pid_xmit with
  | (_, .error _) => .error .packetIdExhausted
  | (pidSt, .ok pktid) =>
    -- concat 4 bytes packet id and 8 bytes nonce tail into 12 bytes nonce
    let iv := be32 pktid ++ ks.nonce_tail_xmit
    -- packet op as head of additional data
    let op := ovpn_opcode_compose OVPN_DATA_V2 ks.key_id peer_id
    -- skb after the three pushes: op ‖ wire nonce ‖ tag slot ‖ payload;
    -- AD is the first OVPN_OP_SIZE_V2 + NONCE_WIRE_SIZE bytes
    let ad := be32 op ++ (iv.take NONCE_WIRE_SIZE)
    let ct := ks.encrypt.enc iv ad payload
    .ok (ad ++ ct.2 ++ ct.1, { ks with pid_xmit := pidSt })

/-- crypto_aead.c `ovpn_aead_decrypt`: sanity-check the length, rebuild the
nonce from the wire nonce head and the stored receive tail, and run AEAD
verification with the first 8 bytes as associated data. The payload sits at
`payload_offset = OVPN_OP_SIZE_V2 + NONCE_WIRE_SIZE + tag_size`, after the
tag. Returns the decrypted payload bytes; replay validation happens in
`ovpn_decrypt_post` afterwards. -/
def ovpn_aead_decrypt (ks : OvpnCryptoKeySlot) (w : List Nat) :
    Except OvpnCryptoError (List Nat) :=
  let payload_offset := OVPN_OP_SIZE_V2 + NONCE_WIRE_SIZE + AUTH_TAG_SIZE
  -- sanity check on packet size, payload size must be >= 0
  if w.length < payload_offset then .error .malformedPacket
  else
    let ad := w.take (OVPN_OP_SIZE_V2 + NONCE_WIRE_SIZE)
    let tag := (w.drop (OVPN_OP_SIZE_V2 + NONCE_WIRE_SIZE)).take AUTH_TAG_SIZE
    let payload := w.drop payload_offset
    -- copy nonce into IV buffer: wire nonce head, then stored recv tail
    let iv := (w.drop OVPN_OP_SIZE_V2).take NONCE_WIRE_SIZE ++ ks.nonce_tail_recv
    match ks.decrypt.dec iv ad payload tag with
    | none => .error .authenticationFailed
    | some plain => .ok plain

/-- Window width used by the receive path. The source does not pin the
width (pktid.c is outside the slice); the spec suggests a standard window
such as 64. All replay theorems below hold for every width. -/
def REPLAY_WINDOW : Nat := 64

/-- The receive path for one packet on an already-selected key slot:
`ovpn_aead_decrypt` followed by the packet-id validation slice of io.c
`ovpn_decrypt_post` ("PID sits after the op":
`pid = skb->data + OVPN_OP_SIZE_V2; ovpn_pktid_recv(&ks->pid_recv,
ntohl(*pid), 0)`), then the header/tag strip (`__skb_pull`). Returns the
plaintext handed to the device and the updated slot. -/
def ovpn_recv_decrypt (ks : OvpnCryptoKeySlot) (w : List Nat) :
    Except OvpnCryptoError (List Nat × OvpnCryptoKeySlot) :=
  match ovpn_aead_decrypt ks w with
  | .error e => .error e
  | .ok plain =>
    let pid := ntohlAt (w.drop OVPN_OP_SIZE_V2)
    match ovpn_pktid_recv REPLAY_WINDOW ks.pid_recv pid with
    | (_, .error _) => .error .replayOrTooOld
    | (recvSt, .ok _) => .ok (plain, { ks with pid_recv := recvSt })

/-! ## Sequences of encrypt calls on one key slot -/

/-- Submit a sequence of payloads to `ovpn_aead_encrypt` on one key slot
(packet-id allocation is sequenced at submission, per the spec's concurrency
model) and collect the packet ids carried by the successfully produced wire
packets, in submission order. A failed encrypt drops that packet and leaves
the slot unchanged. -/
def ovpn_encrypt_run (peer_id : Nat) (ks : OvpnCryptoKeySlot) :
    List (List Nat) → List Nat
  | [] => []
  | p :: ps =>
    match ovpn_aead_encrypt peer_id ks p with
    | .ok (w, ks2) => ntohlAt (w.drop OVPN_OP_SIZE_V2) :: ovpn_encrypt_run peer_id ks2 ps
    | .error _ => ovpn_encrypt_run peer_id ks ps

theorem ovpn_aead_encrypt_pktid (peer_id : Nat) (ks : OvpnCryptoKeySlot)
    (payload w : List Nat) (ks2 : OvpnCryptoKeySlot)
    (h : ovpn_aead_encrypt peer_id ks payload = .ok (w, ks2)) :
    ntohlAt (w.drop OVPN_OP_SIZE_V2) = ks.pid_xmit.seq_num + 1
    ∧ ks2.pid_xmit.seq_num = ks.pid_xmit.seq_num + 1
    ∧ ks.pid_xmit.seq_num < u32Max := by
  unfold ovpn_aead_encrypt ovpn_pktid_xmit_next at h
  split_ifs at h with hlt
  · simp only [Except.ok.injEq, Prod.mk.injEq] at h
    obtain ⟨hw, hks⟩ := h
    refine ⟨?_, by rw [← hks], hlt⟩
    have hbound : ks.pid_xmit.seq_num + 1 < 2 ^ 32 := by
      unfold u32Max at hlt; omega
    subst hw
    simp only [OVPN_OP_SIZE_V2, NONCE_WIRE_SIZE, be32, List.cons_append,
      List.nil_append, List.take_succ_cons, List.take_zero, List.drop_succ_cons,
      List.drop_zero, ntohlAt]
    omega

theorem ovpn_encrypt_run_gt (peer_id : Nat) (ks : OvpnCryptoKeySlot)
    (ps : List (List Nat)) :
    ∀ i ∈ ovpn_encrypt_run peer_id ks ps, ks.pid_xmit.seq_num < i := by
  induction ps generalizing ks with
  | nil => intro i hi; simp [ovpn_encrypt_run] at hi
  | cons p ps ih =>
    intro i hi
    unfold ovpn_encrypt_run at hi
    rcases henc : ovpn_aead_encrypt peer_id ks p with e | ⟨w, ks2⟩
    · rw [henc] at hi
      exact ih ks i hi
    · rw [henc] at hi
      obtain ⟨hpid, hseq, _⟩ := ovpn_aead_encrypt_pktid peer_id ks p w ks2 henc
      simp only [List.mem_cons] at hi
      rcases hi with hi | hi
      · omega
      · have := ih ks2 i hi
        omega

/-- C3: for every sequence of `encrypt` calls on one KeySlot, the packet ids
carried by the produced packets are strictly increasing in submission order;
and when the 32-bit counter would wrap, `encrypt` fails with
`PacketIdExhausted` (the packet is dropped) instead of reusing or wrapping
an id. -/
theorem encrypt_pktid_monotonic_and_exhaustion (peer_id : Nat)
    (ks : OvpnCryptoKeySlot) (ps : List (List Nat)) :
    List.Chain' (· < ·) (ovpn_encrypt_run peer_id ks ps)
    ∧ (∀ payload, ks.pid_xmit.seq_num = u32Max →
        ovpn_aead_encrypt peer_id ks payload = .error .packetIdExhausted) := by
  constructor
  · induction ps generalizing ks with
    | nil => simp [ovpn_encrypt_run]
    | cons p ps ih =>
      unfold ovpn_encrypt_run
      rcases henc : ovpn_aead_encrypt peer_id ks p with e | ⟨w, ks2⟩
      · exact ih ks
      · obtain ⟨hpid, hseq, _⟩ := ovpn_aead_encrypt_pktid peer_id ks p w ks2 henc
        refine List.chain'_cons'.mpr ⟨?_, ih ks2⟩
        intro y hy
        have hmem : y ∈ ovpn_encrypt_run peer_id ks2 ps := by
          exact List.mem_of_mem_head? hy
        have := ovpn_encrypt_run_gt peer_id ks2 ps y hmem
        omega
  · intro payload hmax
    unfold ovpn_aead_encrypt ovpn_pktid_xmit_next
    split_ifs with hlt
    · omega
    · rfl

/-- C3 witness: a slot whose counter sits at the largest 32-bit value: the
first conjunct on a concrete run, and the exhaustion conjunct on it. -/
theorem encrypt_pktid_monotonic_and_exhaustion_witness :
    List.Chain' (· < ·)
      (ovpn_encrypt_run 7
        ⟨0, idAead, idAead, List.replicate 8 1, List.replicate 8 1, ⟨u32Max⟩,
          ovpn_pktid_recv_init⟩ [[1], [2]])
    ∧ ovpn_aead_encrypt 7
        ⟨0, idAead, idAead, List.replicate 8 1, List.replicate 8 1, ⟨u32Max⟩,
          ovpn_pktid_recv_init⟩ [3]
        = .error .packetIdExhausted := by
  refine ⟨(encrypt_pktid_monotonic_and_exhaustion 7 _ _).1, ?_⟩
  exact (encrypt_pktid_monotonic_and_exhaustion 7
    ⟨0, idAead, idAead, List.replicate 8 1, List.replicate 8 1, ⟨u32Max⟩,
      ovpn_pktid_recv_init⟩ [[1], [2]]).2 [3] rfl

/-- C1: anti-replay correctness. For every delivery sequence starting from a
fresh window, an id accepted at some point is rejected with
`ReplayOrTooOld` when re-delivered at any later point (so each id is
accepted at most once); an id higher than the high-water mark shifts the
window forward and is accepted; an id inside the window is accepted exactly
when not already marked; an id below the window's lower bound is rejected
unconditionally, leaving the window unchanged. Holds for every window
width `N`. -/
theorem pktid_recv_replay_protection (N : Nat) (st : OvpnPktIdRecv)
    (p : Nat) (l l2 : List Nat)
    (hacc : p ∈ ovpn_pktid_recv_accepted N ovpn_pktid_recv_init l) :
    (ovpn_pktid_recv N (ovpn_pktid_recv_run N ovpn_pktid_recv_init (l ++ l2)) p).2
        = .error .replayOrTooOld
    ∧ (st.hwm < p →
        (ovpn_pktid_recv N st p).2 = .ok ()
        ∧ ((ovpn_pktid_recv N st p).1).hwm = p)
    ∧ (p ≤ st.hwm → st.hwm < p + N →
        ((ovpn_pktid_recv N st p).2 = .ok () ↔ p ∉ st.marked))
    ∧ (p + N ≤ st.hwm →
        ovpn_pktid_recv N st p = (st, .error .replayOrTooOld)) := by
  refine ⟨?_, ?_, ?_, ?_⟩
  · have hseen := pktid_accepted_seen N ovpn_pktid_recv_init p l hacc
    rw [pktid_run_append]
    have := pktidSeen_run N _ p l2 hseen
    rw [pktidSeen_reject N _ p this]
  · intro hgt
    unfold ovpn_pktid_recv
    split_ifs
    exact ⟨rfl, rfl⟩
  · intro hle hwin
    unfold ovpn_pktid_recv
    split_ifs with h1 h2 h3
    · omega
    · omega
    · simpa using h3
    · simpa using h3
  · intro hlow
    unfold ovpn_pktid_recv
    split_ifs with h1
    · omega
    · rfl

/-- C1 witness: the spec's example, ids [5,6,7,6] on a fresh 64-wide window:
5, 6 and 7 are accepted and the re-delivered 6 is rejected; the window-shift,
in-window and below-window behaviours at the state reached after [5,6,7]. -/
theorem pktid_recv_replay_protection_witness :
    (6 ∈ ovpn_pktid_recv_accepted 64 ovpn_pktid_recv_init [5, 6, 7])
    ∧ ((ovpn_pktid_recv 64
          (ovpn_pktid_recv_run 64 ovpn_pktid_recv_init ([5, 6, 7] ++ [])) 6).2
        = .error .replayOrTooOld)
    ∧ (ovpn_pktid_recv_accepted 64 ovpn_pktid_recv_init [5, 6, 7, 6] = [5, 6, 7]) := by
  refine ⟨by decide, ?_, by decide⟩
  exact (pktid_recv_replay_protection 64 ovpn_pktid_recv_init 6 [5, 6, 7] []
    (by decide)).1

/-! ## Round trip and wire layout -/

/-- Normal form of a successful `ovpn_aead_encrypt`: the packet is the 8
header bytes (op word, then packet id), then the 16-byte tag slot, then the
ciphertext; the AEAD ran over the payload with the header as associated
data and the 12-byte nonce headed by the packet id. -/
theorem ovpn_aead_encrypt_ok_eq (peer_id : Nat) (ks : OvpnCryptoKeySlot)
    (payload : List Nat) (hlt : ks.pid_xmit.seq_num < u32Max) :
    ovpn_aead_encrypt peer_id ks payload =
      .ok ((be32 (ovpn_opcode_compose OVPN_DATA_V2 ks.key_id peer_id)
             ++ be32 (ks.pid_xmit.seq_num + 1))
            ++ (ks.encrypt.enc
                  (be32 (ks.pid_xmit.seq_num + 1) ++ ks.nonce_tail_xmit)
                  (be32 (ovpn_opcode_compose OVPN_DATA_V2 ks.key_id peer_id)
                    ++ be32 (ks.pid_xmit.seq_num + 1)) payload).2
            ++ (ks.encrypt.enc
                  (be32 (ks.pid_xmit.seq_num + 1) ++ ks.nonce_tail_xmit)
                  (be32 (ovpn_opcode_compose OVPN_DATA_V2 ks.key_id peer_id)
                    ++ be32 (ks.pid_xmit.seq_num + 1)) payload).1,
           { ks with pid_xmit := ⟨ks.pid_xmit.seq_num + 1⟩ }) := by
  unfold ovpn_aead_encrypt ovpn_pktid_xmit_next
  rw [if_pos hlt]
  have htake : (be32 (ks.pid_xmit.seq_num + 1) ++ ks.nonce_tail_xmit).take
      NONCE_WIRE_SIZE = be32 (ks.pid_xmit.seq_num + 1) :=
    List.take_left' (by simp [be32, NONCE_WIRE_SIZE])
  simp only [htake, List.append_assoc]

theorem be32_length (x : Nat) : (be32 x).length = 4 := by simp [be32]

theorem ovpn_opcode_compose_lt (opcode key_id peer_id : Nat) :
    ovpn_opcode_compose opcode key_id peer_id < 2 ^ 32 := by
  unfold ovpn_opcode_compose
  have h1 : opcode % 32 < 32 := Nat.mod_lt _ (by norm_num)
  have h2 : key_id % 8 < 8 := Nat.mod_lt _ (by norm_num)
  have h3 : peer_id % 2 ^ 24 < 2 ^ 24 := Nat.mod_lt _ (by norm_num)
  omega

/-- C4 (amended): for every AEAD provider, plaintext, peer and pair of
matched key slots — the receiver's decrypt cipher and receive nonce tail
equal the sender's encrypt cipher and transmit nonce tail, the receiver's
replay mark does not exceed the sender's counter, and the counter is not
exhausted — decrypting the wire packet produced by encrypt yields the
plaintext again, and the peer-id field of the packet's first 4-byte word is
the encrypting peer's id reduced to the 24-bit wire field
(`peer_id % 2 ^ 24`; equal to the id whenever it fits in 24 bits). -/
theorem aead_encrypt_decrypt_roundtrip (peer_id : Nat)
    (ks_tx ks_rx : OvpnCryptoKeySlot) (payload : List Nat)
    (hcipher : ks_rx.decrypt = ks_tx.encrypt)
    (htail : ks_rx.nonce_tail_recv = ks_tx.nonce_tail_xmit)
    (hseq : ks_tx.pid_xmit.seq_num < u32Max)
    (hwin : ks_rx.pid_recv.hwm ≤ ks_tx.pid_xmit.seq_num) :
    ∃ w ks2 ks3,
      ovpn_aead_encrypt peer_id ks_tx payload = .ok (w, ks2)
      ∧ ovpn_recv_decrypt ks_rx w = .ok (payload, ks3)
      ∧ ovpn_peer_id_from_skb w 0 = peer_id % 2 ^ 24 := by
  have henc := ovpn_aead_encrypt_ok_eq peer_id ks_tx payload hseq
  set op := ovpn_opcode_compose OVPN_DATA_V2 ks_tx.key_id peer_id with hop
  set pktid := ks_tx.pid_xmit.seq_num + 1 with hpktid
  set iv := be32 pktid ++ ks_tx.nonce_tail_xmit with hiv
  set ct := ks_tx.encrypt.enc iv (be32 op ++ be32 pktid) payload with hct
  set w := (be32 op ++ be32 pktid) ++ (ct.2 ++ ct.1) with hw
  have htag : ct.2.length = 16 := ks_tx.encrypt.tag_len iv _ payload
  have hbound : pktid < 2 ^ 32 := by rw [hpktid]; unfold u32Max at hseq; omega
  -- dissect the wire packet back into its regions
  have hw2 : w = be32 op ++ (be32 pktid ++ (ct.2 ++ ct.1)) := by
    rw [hw, List.append_assoc]
  have hadlen : (be32 op ++ be32 pktid).length = 8 := by
    simp [be32_length]
  have hlen : ¬ (w.length < OVPN_OP_SIZE_V2 + NONCE_WIRE_SIZE + AUTH_TAG_SIZE) := by
    rw [hw]
    simp only [List.length_append, hadlen, htag, OVPN_OP_SIZE_V2,
      NONCE_WIRE_SIZE, AUTH_TAG_SIZE]
    omega
  have htake8 : w.take (OVPN_OP_SIZE_V2 + NONCE_WIRE_SIZE) = be32 op ++ be32 pktid := by
    rw [hw]; exact List.take_left' hadlen
  have hdrop8 : w.drop (OVPN_OP_SIZE_V2 + NONCE_WIRE_SIZE) = ct.2 ++ ct.1 := by
    rw [hw]; exact List.drop_left' hadlen
  have htag16 : (ct.2 ++ ct.1).take AUTH_TAG_SIZE = ct.2 :=
    List.take_left' (by rw [htag]; rfl)
  have hpayload : w.drop (OVPN_OP_SIZE_V2 + NONCE_WIRE_SIZE + AUTH_TAG_SIZE) = ct.1 := by
    rw [show OVPN_OP_SIZE_V2 + NONCE_WIRE_SIZE + AUTH_TAG_SIZE
          = (OVPN_OP_SIZE_V2 + NONCE_WIRE_SIZE) + AUTH_TAG_SIZE from rfl,
        ← List.drop_drop, hdrop8]
    exact List.drop_left' (by rw [htag]; rfl)
  have hdrop4 : w.drop OVPN_OP_SIZE_V2 = be32 pktid ++ (ct.2 ++ ct.1) := by
    rw [hw2]
    exact List.drop_left' (be32_length op)
  have hivtake : (w.drop OVPN_OP_SIZE_V2).take NONCE_WIRE_SIZE = be32 pktid := by
    rw [hdrop4]
    exact List.take_left' (be32_length pktid)
  have haead : ovpn_aead_decrypt ks_rx w = .ok payload := by
    unfold ovpn_aead_decrypt
    rw [if_neg hlen]
    rw [htake8, hpayload, hdrop8, hivtake, htail, hcipher, htag16]
    have hdec := ks_tx.encrypt.dec_enc iv (be32 op ++ be32 pktid) payload
    rw [← hct] at hdec
    rw [← hiv]
    dsimp only
    rw [hdec]
  have hpid : ntohlAt (w.drop OVPN_OP_SIZE_V2) = pktid := by
    rw [hdrop4]; exact ntohlAt_be32 pktid _ hbound
  have hrecvstep : ovpn_pktid_recv REPLAY_WINDOW ks_rx.pid_recv pktid =
      (⟨pktid, insert pktid (ks_rx.pid_recv.marked.filter
        (fun a => pktid < a + REPLAY_WINDOW))⟩, .ok ()) := by
    unfold ovpn_pktid_recv
    rw [if_pos (by omega : ks_rx.pid_recv.hwm < pktid)]
  refine ⟨w, _, { ks_rx with pid_recv := ⟨pktid,
      insert pktid (ks_rx.pid_recv.marked.filter
        (fun a => pktid < a + REPLAY_WINDOW))⟩ }, henc, ?_, ?_⟩
  · unfold ovpn_recv_decrypt
    rw [haead, hpid]
    dsimp only
    rw [hrecvstep]
  · unfold ovpn_peer_id_from_skb
    rw [List.drop_zero, hw2, ntohlAt_be32 op _ (ovpn_opcode_compose_lt _ _ _), hop]
    unfold ovpn_opcode_compose
    have h3 : peer_id % 2 ^ 24 < 2 ^ 24 := Nat.mod_lt _ (by norm_num)
    omega

/-- A concrete key slot over the degenerate provider (key id 3, distinct
nonce tails per direction, fresh counters) used to evaluate the framing
code on concrete packets. -/
def ksTxConcrete : OvpnCryptoKeySlot :=
  ⟨3, idAead, idAead, List.replicate 8 7, List.replicate 8 9, ⟨0⟩,
    ovpn_pktid_recv_init⟩

/-- The matching receive-side slot: its decrypt cipher and receive nonce
tail equal `ksTxConcrete`'s encrypt cipher and transmit nonce tail. -/
def ksRxConcrete : OvpnCryptoKeySlot :=
  ⟨3, idAead, idAead, List.replicate 8 9, List.replicate 8 7, ⟨0⟩,
    ovpn_pktid_recv_init⟩

/-- C4 witness: the round-trip theorem instantiated on the concrete matched
slot pair, peer id 33 and payload [1, 2, 3], with every hypothesis
discharged by evaluation. -/
theorem aead_encrypt_decrypt_roundtrip_witness :
    ksRxConcrete.decrypt = ksTxConcrete.encrypt
    ∧ ksRxConcrete.nonce_tail_recv = ksTxConcrete.nonce_tail_xmit
    ∧ ksTxConcrete.pid_xmit.seq_num < u32Max
    ∧ ksRxConcrete.pid_recv.hwm ≤ ksTxConcrete.pid_xmit.seq_num
    ∧ (∃ w ks2 ks3,
        ovpn_aead_encrypt 33 ksTxConcrete [1, 2, 3] = .ok (w, ks2)
        ∧ ovpn_recv_decrypt ksRxConcrete w = .ok ([1, 2, 3], ks3)
        ∧ ovpn_peer_id_from_skb w 0 = 33 % 2 ^ 24) :=
  ⟨rfl, rfl, by decide, by decide,
    aead_encrypt_decrypt_roundtrip 33 ksTxConcrete ksRxConcrete [1, 2, 3]
      rfl rfl (by decide) (by decide)⟩

/-- C4 counterexample: for the peer with id 2^24 = 16777216 (a 32-bit id
that does not fit the 24-bit wire field), the wire packet produced by
encrypt carries peer-id field 0, not 16777216: the claim that the field
always equals the encrypting peer's id fails. -/
theorem encrypt_peer_id_field_counterexample :
    (ovpn_aead_encrypt 16777216 ksTxConcrete [1]).map
        (fun r => ovpn_peer_id_from_skb r.1 0) = .ok 0
    ∧ (0 : Nat) ≠ 16777216 := by
  constructor
  · rfl
  · decide

/-- Follows the spec's words, for refinement comparison (§6 "Wire header
(data packet, version 2)"): 1 byte combining a 5-bit opcode and 3-bit
key-id, followed by 3 bytes of peer-id (24 bits), followed by 4-byte packet
id, followed by ciphertext, followed by a 16-byte authentication tag. -/
def spec_wire_layout (opcode key_id peer_id pktid : Nat)
    (ciphertext tag : List Nat) : List Nat :=
  (opcode % 32 * 8 + key_id % 8) :: be24 peer_id
    ++ be32 pktid ++ ciphertext ++ tag

theorem be32_opcode_compose (opcode key_id peer_id : Nat) :
    be32 (ovpn_opcode_compose opcode key_id peer_id)
      = (opcode % 32 * 8 + key_id % 8) :: be24 (peer_id % 2 ^ 24) := by
  unfold be32 be24 ovpn_opcode_compose
  have h1 : opcode % 32 < 32 := Nat.mod_lt _ (by norm_num)
  have h2 : key_id % 8 < 8 := Nat.mod_lt _ (by norm_num)
  have h3 : peer_id % 2 ^ 24 < 2 ^ 24 := Nat.mod_lt _ (by norm_num)
  simp only [List.cons.injEq, and_true]
  refine ⟨?_, ?_, ?_, ?_⟩ <;> omega

/-- C5 (amended): every data packet produced by encrypt is the byte
combining the 5-bit opcode and the 3-bit key-id, then the 3 peer-id bytes
(the id reduced to 24 bits), then the 4-byte packet id, then the 16-byte
authentication tag, then the ciphertext: the tag sits between the packet id
and the ciphertext, not after the ciphertext; the AEAD runs over the
payload with the 8 header bytes as associated data. -/
theorem encrypt_wire_layout (peer_id : Nat) (ks : OvpnCryptoKeySlot)
    (payload : List Nat) (hseq : ks.pid_xmit.seq_num < u32Max) :
    ovpn_aead_encrypt peer_id ks payload =
      .ok ((OVPN_DATA_V2 % 32 * 8 + ks.key_id % 8) :: be24 (peer_id % 2 ^ 24)
            ++ be32 (ks.pid_xmit.seq_num + 1)
            ++ (ks.encrypt.enc
                  (be32 (ks.pid_xmit.seq_num + 1) ++ ks.nonce_tail_xmit)
                  ((OVPN_DATA_V2 % 32 * 8 + ks.key_id % 8)
                      :: be24 (peer_id % 2 ^ 24)
                    ++ be32 (ks.pid_xmit.seq_num + 1)) payload).2
            ++ (ks.encrypt.enc
                  (be32 (ks.pid_xmit.seq_num + 1) ++ ks.nonce_tail_xmit)
                  ((OVPN_DATA_V2 % 32 * 8 + ks.key_id % 8)
                      :: be24 (peer_id % 2 ^ 24)
                    ++ be32 (ks.pid_xmit.seq_num + 1)) payload).1,
           { ks with pid_xmit := ⟨ks.pid_xmit.seq_num + 1⟩ })
    ∧ (ks.encrypt.enc (be32 (ks.pid_xmit.seq_num + 1) ++ ks.nonce_tail_xmit)
        ((OVPN_DATA_V2 % 32 * 8 + ks.key_id % 8) :: be24 (peer_id % 2 ^ 24)
          ++ be32 (ks.pid_xmit.seq_num + 1)) payload).2.length
        = AUTH_TAG_SIZE := by
  have henc := ovpn_aead_encrypt_ok_eq peer_id ks payload hseq
  rw [be32_opcode_compose] at henc
  constructor
  · rw [henc]
  · exact ks.encrypt.tag_len _ _ _

/-- C5 witness: the layout theorem instantiated on the concrete slot, peer
id 5 and payload [1, 2, 3]. -/
theorem encrypt_wire_layout_witness :
    ksTxConcrete.pid_xmit.seq_num < u32Max
    ∧ (ovpn_aead_encrypt 5 ksTxConcrete [1, 2, 3] =
        .ok ((OVPN_DATA_V2 % 32 * 8 + ksTxConcrete.key_id % 8)
              :: be24 (5 % 2 ^ 24)
              ++ be32 (ksTxConcrete.pid_xmit.seq_num + 1)
              ++ (ksTxConcrete.encrypt.enc
                    (be32 (ksTxConcrete.pid_xmit.seq_num + 1)
                      ++ ksTxConcrete.nonce_tail_xmit)
                    ((OVPN_DATA_V2 % 32 * 8 + ksTxConcrete.key_id % 8)
                        :: be24 (5 % 2 ^ 24)
                      ++ be32 (ksTxConcrete.pid_xmit.seq_num + 1)) [1, 2, 3]).2
              ++ (ksTxConcrete.encrypt.enc
                    (be32 (ksTxConcrete.pid_xmit.seq_num + 1)
                      ++ ksTxConcrete.nonce_tail_xmit)
                    ((OVPN_DATA_V2 % 32 * 8 + ksTxConcrete.key_id % 8)
                        :: be24 (5 % 2 ^ 24)
                      ++ be32 (ksTxConcrete.pid_xmit.seq_num + 1)) [1, 2, 3]).1,
             { ksTxConcrete with pid_xmit := ⟨ksTxConcrete.pid_xmit.seq_num + 1⟩ })
        ∧ (ksTxConcrete.encrypt.enc
            (be32 (ksTxConcrete.pid_xmit.seq_num + 1)
              ++ ksTxConcrete.nonce_tail_xmit)
            ((OVPN_DATA_V2 % 32 * 8 + ksTxConcrete.key_id % 8)
                :: be24 (5 % 2 ^ 24)
              ++ be32 (ksTxConcrete.pid_xmit.seq_num + 1)) [1, 2, 3]).2.length
            = AUTH_TAG_SIZE) :=
  ⟨by decide, encrypt_wire_layout 5 ksTxConcrete [1, 2, 3] (by decide)⟩

/-- C5 counterexample: a concrete data packet produced by encrypt (peer id
5, payload [1, 2, 3], degenerate provider whose ciphertext is [1, 2, 3] and
whose tag is sixteen zero bytes) is not of the spec's claimed shape
header ‖ ciphertext ‖ tag — the tag precedes the ciphertext instead. -/
theorem encrypt_wire_layout_counterexample :
    (ovpn_aead_encrypt 5 ksTxConcrete [1, 2, 3]).map Prod.fst =
      .ok ([75, 0, 0, 5, 0, 0, 0, 1]
            ++ List.replicate 16 0 ++ [1, 2, 3])
    ∧ ([75, 0, 0, 5, 0, 0, 0, 1] ++ List.replicate 16 0 ++ [1, 2, 3] : List Nat)
        ≠ spec_wire_layout 9 3 5 1 [1, 2, 3] (List.replicate 16 0) := by
  constructor
  · rfl
  · decide

/-! ## Transport addresses and bindings (bind.h) -/

/-- Device operation mode (uapi `enum ovpn_mode`). -/
inductive OvpnMode
  | p2p
  | mp
  deriving DecidableEq, Repr

def AF_INET : Nat := 2
def AF_INET6 : Nat := 10

/-- union ovpn_sockaddr (bind.h): an IPv4 or IPv6 remote endpoint, address
and transport port (addresses collapsed to numbers; the IPv6 scope id,
which none of the embedded comparisons read, is omitted). -/
inductive OvpnSockaddr
  | v4 (addr : Nat) (port : Nat)
  | v6 (addr : Nat) (port : Nat)
  deriving DecidableEq, Repr

/-- The `sin_family` each sockaddr variant carries. -/
def OvpnSockaddr.family : OvpnSockaddr → Nat
  | .v4 _ _ => AF_INET
  | .v6 _ _ => AF_INET6

/-- struct ovpn_bind (bind.h): the remote peer sockaddr plus the learned
local endpoint (the in4/in6 local union collapsed to one number, 0 when not
yet learned). -/
structure OvpnBind where
  remote : OvpnSockaddr
  localIp : Nat
  deriving DecidableEq, Repr

/-- Modelled from the spec: `ovpn_bind_from_sockaddr` is declared in bind.h
but bind.c is not in the source slice. "Construct a fresh Binding": remote
taken from the sockaddr, local address not yet learned. -/
def ovpn_bind_from_sockaddr (ss : OvpnSockaddr) : OvpnBind := ⟨ss, 0⟩

/-- bind.h `ovpn_bind_skb_src_match`: nothing matches a missing binding;
otherwise the packet's source family, address and port must all equal the
binding's remote. The packet source is passed as the sockaddr the code
reads out of the headers. -/
def ovpn_bind_skb_src_match (bind : Option OvpnBind) (src : OvpnSockaddr) : Bool :=
  match bind with
  | none => false
  | some b =>
    match b.remote, src with
    | .v4 ba bp, .v4 sa sp => decide (ba = sa ∧ bp = sp)
    | .v6 ba bp, .v6 sa sp => decide (ba = sa ∧ bp = sp)
    | _, _ => false

theorem ovpn_bind_skb_src_match_iff (b : OvpnBind) (src : OvpnSockaddr) :
    ovpn_bind_skb_src_match (some b) src = true ↔ b.remote = src := by
  unfold ovpn_bind_skb_src_match
  rcases hb : b.remote with ⟨ba, bp⟩ | ⟨ba, bp⟩ <;>
    rcases hs : src with ⟨sa, sp⟩ | ⟨sa, sp⟩ <;>
    simp_all

/-! ## Peers and the registry (peer.h data, peer.c operations) -/

/-- uapi `enum ovpn_del_peer_reason`. -/
inductive OvpnDelPeerReason
  | teardown
  | userspace
  | expired
  | transportError
  deriving DecidableEq, Repr

/-- struct ovpn_peer, the fields the embedded operations read or write:
identity, VPN addresses (0 = INADDR_ANY / in6addr_any), current binding,
keepalive configuration and timestamps (time64_t as `Int`), and the
delete reason recorded at unhash time. -/
structure OvpnPeer where
  id : Nat
  vpnAddr4 : Nat
  vpnAddr6 : Nat
  bind : Option OvpnBind
  keepalive_interval : Nat
  keepalive_timeout : Nat
  last_sent : Int
  last_recv : Int
  keepalive_xmit_exp : Int
  keepalive_recv_exp : Int
  delete_reason : Option OvpnDelPeerReason
  deriving DecidableEq, Repr

/-- A reference to a live peer object (the analog of a held pointer). -/
abbrev PeerRef := Nat

/-- struct ovpn_peer_collection (ovpnstruct.h): the three hash indices as
bucket maps from bucket index to the refs hashed there. The single
`by_vpn_addr` table holds both the addr4 and addr6 intrusive entries;
they are kept as two bucket maps since each entry type is traversed
through its own hlist member. -/
structure OvpnPeerCollection where
  by_id : Nat → List PeerRef
  by_vpn_addr4 : Nat → List PeerRef
  by_vpn_addr6 : Nat → List PeerRef
  by_transp_addr : Nat → List PeerRef

/-- struct ovpn_struct (ovpnstruct.h): mode, the multi-peer collection and
the P2P singleton peer pointer; `store` is the heap of live peer objects
that the intrusive hash entries point into. -/
structure OvpnStruct where
  mode : OvpnMode
  store : PeerRef → Option OvpnPeer
  peers : OvpnPeerCollection
  peer : Option PeerRef

/-- The `jhash(key) % HASH_SIZE(tbl)` bucket functions
(`ovpn_get_hash_head`), abstracted: any bucket choice function works for
every theorem below. -/
structure HashParams where
  hId : Nat → Nat
  hV4 : Nat → Nat
  hV6 : Nat → Nat
  hTr : OvpnSockaddr → Nat

/-- `hlist_add_head_rcu`-style insertion at the head of one bucket. -/
def bucketAddHead (t : Nat → List PeerRef) (k : Nat) (r : PeerRef) :
    Nat → List PeerRef :=
  fun b => if b = k then r :: t b else t b

/-- `hlist_del_init_rcu`-style removal: the entry disappears from whatever
bucket list holds it. -/
def bucketRemove (t : Nat → List PeerRef) (r : PeerRef) : Nat → List PeerRef :=
  fun b => (t b).filter (fun x => decide (x ≠ r))

/-- Point update of the peer heap. -/
def storeSet (s : PeerRef → Option OvpnPeer) (r : PeerRef) (p : OvpnPeer) :
    PeerRef → Option OvpnPeer :=
  fun x => if x = r then some p else s x

/-- peer.c `ovpn_peer_transp_match`: false without a binding; otherwise the
sockaddr's family, address and port must equal the binding's remote. -/
def ovpn_peer_transp_match (p : OvpnPeer) (ss : OvpnSockaddr) : Bool :=
  match p.bind with
  | none => false
  | some b =>
    match ss, b.remote with
    | .v4 sa sp, .v4 ba bp => decide (sa = ba ∧ sp = bp)
    | .v6 sa sp, .v6 ba bp => decide (sa = ba ∧ sp = bp)
    | _, _ => false

theorem ovpn_peer_transp_match_iff (p : OvpnPeer) (ss : OvpnSockaddr) :
    ovpn_peer_transp_match p ss = true
      ↔ ∃ b, p.bind = some b ∧ b.remote = ss := by
  unfold ovpn_peer_transp_match
  rcases hb : p.bind with _ | b
  · simp
  · rcases hr : b.remote with ⟨ba, bp⟩ | ⟨ba, bp⟩ <;>
      rcases hs : ss with ⟨sa, sp⟩ | ⟨sa, sp⟩ <;>
      simp_all <;> aesop

/-- peer.c `ovpn_peer_get_by_id_p2p`: the singleton peer, if present, live
and carrying the requested id. -/
def ovpn_peer_get_by_id_p2p (ovpn : OvpnStruct) (peer_id : Nat) :
    Option PeerRef :=
  match ovpn.peer with
  | none => none
  | some r =>
    match ovpn.store r with
    | none => none
    | some q => if q.id = peer_id then some r else none

/-- peer.c `ovpn_peer_get_by_id`: P2P fast path, or a walk of the id bucket
skipping entries whose id differs (a dead entry that cannot be held is a
miss; in this sequential model every stored peer can be held). -/
def ovpn_peer_get_by_id (hp : HashParams) (ovpn : OvpnStruct)
    (peer_id : Nat) : Option PeerRef :=
  if ovpn.mode = .p2p then ovpn_peer_get_by_id_p2p ovpn peer_id
  else
    (ovpn.peers.by_id (hp.hId peer_id)).find? (fun r =>
      match ovpn.store r with
      | some q => decide (q.id = peer_id)
      | none => false)

/-- peer.c `ovpn_peer_get_by_transp_addr_p2p`. -/
def ovpn_peer_get_by_transp_addr_p2p (ovpn : OvpnStruct)
    (ss : OvpnSockaddr) : Option PeerRef :=
  match ovpn.peer with
  | none => none
  | some r =>
    match ovpn.store r with
    | none => none
    | some q => if ovpn_peer_transp_match q ss then some r else none

/-- peer.c `ovpn_peer_get_by_transp_addr`: read the source sockaddr out of
the packet (`ovpn_peer_skb_to_sockaddr`; `none` models a non-IP packet,
where the conversion fails and the lookup returns NULL), then either the
P2P fast path or a walk of the transport bucket keeping only entries whose
current binding matches the source. -/
def ovpn_peer_get_by_transp_addr (hp : HashParams) (ovpn : OvpnStruct)
    (src : Option OvpnSockaddr) : Option PeerRef :=
  match src with
  | none => none
  | some ss =>
    if ovpn.mode = .p2p then ovpn_peer_get_by_transp_addr_p2p ovpn ss
    else
      (ovpn.peers.by_transp_addr (hp.hTr ss)).find? (fun r =>
        match ovpn.store r with
        | some q => ovpn_peer_transp_match q ss
        | none => false)

/-- peer.c `ovpn_peer_hash_vpn_ip`, faithfully including the source's
removal of `hash_entry_transp_addr` (not the address entry) before each
vpn-address insertion. -/
def ovpn_peer_hash_vpn_ip (hp : HashParams) (coll : OvpnPeerCollection)
    (ref : PeerRef) (peer : OvpnPeer) : OvpnPeerCollection :=
  let c1 :=
    if peer.vpnAddr4 ≠ 0 then
      { coll with
        by_transp_addr := bucketRemove coll.by_transp_addr ref,
        by_vpn_addr4 :=
          bucketAddHead coll.by_vpn_addr4 (hp.hV4 peer.vpnAddr4) ref }
    else coll
  if peer.vpnAddr6 ≠ 0 then
    { c1 with
      by_transp_addr := bucketRemove c1.by_transp_addr ref,
      by_vpn_addr6 :=
        bucketAddHead c1.by_vpn_addr6 (hp.hV6 peer.vpnAddr6) ref }
  else c1

/-- peer.c `ovpn_peer_add_mp`: under the registry lock, fail with -EEXIST
when a peer with the same id is already present; otherwise hash the peer by
transport address (when it has a binding — TCP peers have none), by id,
and by VPN addresses. Returns the new registry state and the C return
code. -/
def ovpn_peer_add_mp (hp : HashParams) (ovpn : OvpnStruct) (ref : PeerRef) :
    OvpnStruct × Int :=
  match ovpn.store ref with
  | none => (ovpn, -22)
  | some peer =>
    match ovpn_peer_get_by_id hp ovpn peer.id with
    | some _ => (ovpn, -17)
    | none =>
      let coll0 := ovpn.peers
      let coll1 :=
        match peer.bind with
        | some b =>
          { coll0 with
            by_transp_addr :=
              bucketAddHead coll0.by_transp_addr (hp.hTr b.remote) ref }
        | none => coll0
      let coll2 :=
        { coll1 with by_id := bucketAddHead coll1.by_id (hp.hId peer.id) ref }
      ({ ovpn with peers := ovpn_peer_hash_vpn_ip hp coll2 ref peer }, 0)

/-- peer.c `ovpn_peer_add_p2p`: the old singleton (if any) is marked for
teardown and released; the new peer becomes the singleton. -/
def ovpn_peer_add_p2p (ovpn : OvpnStruct) (ref : PeerRef) : OvpnStruct × Int :=
  match ovpn.peer with
  | some oldr =>
    match ovpn.store oldr with
    | some oldp =>
      ({ ovpn with
          store := storeSet ovpn.store oldr
            { oldp with delete_reason := some .teardown },
          peer := some ref }, 0)
    | none => ({ ovpn with peer := some ref }, 0)
  | none => ({ ovpn with peer := some ref }, 0)

/-- peer.c `ovpn_peer_add`: mode dispatch. -/
def ovpn_peer_add (hp : HashParams) (ovpn : OvpnStruct) (ref : PeerRef) :
    OvpnStruct × Int :=
  match ovpn.mode with
  | .mp => ovpn_peer_add_mp hp ovpn ref
  | .p2p => ovpn_peer_add_p2p ovpn ref

/-- peer.c `ovpn_peer_unhash`: remove the peer from every index and record
the delete reason (the registry's own reference drop is part of the elided
refcounting; the object stays in the heap until the last holder lets go). -/
def ovpn_peer_unhash (ovpn : OvpnStruct) (ref : PeerRef)
    (reason : OvpnDelPeerReason) : OvpnStruct :=
  let coll :=
    { by_id := bucketRemove ovpn.peers.by_id ref,
      by_vpn_addr4 := bucketRemove ovpn.peers.by_vpn_addr4 ref,
      by_vpn_addr6 := bucketRemove ovpn.peers.by_vpn_addr6 ref,
      by_transp_addr := bucketRemove ovpn.peers.by_transp_addr ref }
  match ovpn.store ref with
  | some p =>
    { ovpn with
      peers := coll,
      store := storeSet ovpn.store ref { p with delete_reason := some reason } }
  | none => { ovpn with peers := coll }

/-- peer.c `ovpn_peer_del_mp`: delete only if the id lookup still yields
this very peer object; otherwise -ENOENT and no state change. -/
def ovpn_peer_del_mp (hp : HashParams) (ovpn : OvpnStruct) (ref : PeerRef)
    (reason : OvpnDelPeerReason) : OvpnStruct × Int :=
  match ovpn.store ref with
  | none => (ovpn, -2)
  | some peer =>
    match ovpn_peer_get_by_id hp ovpn peer.id with
    | some tmp =>
      if tmp = ref then (ovpn_peer_unhash ovpn ref reason, 0) else (ovpn, -2)
    | none => (ovpn, -2)

/-- peer.c `ovpn_peer_del_p2p`: delete only if this peer is the current
singleton; record the reason and clear the singleton pointer. -/
def ovpn_peer_del_p2p (ovpn : OvpnStruct) (ref : PeerRef)
    (reason : OvpnDelPeerReason) : OvpnStruct × Int :=
  match ovpn.peer with
  | some tmp =>
    if tmp = ref then
      match ovpn.store ref with
      | some p =>
        ({ ovpn with
            store := storeSet ovpn.store ref
              { p with delete_reason := some reason },
            peer := none }, 0)
      | none => ({ ovpn with peer := none }, 0)
    else (ovpn, -2)
  | none => (ovpn, -2)

/-- peer.c `ovpn_peer_del`: mode dispatch (each arm under its lock). -/
def ovpn_peer_del (hp : HashParams) (ovpn : OvpnStruct) (ref : PeerRef)
    (reason : OvpnDelPeerReason) : OvpnStruct × Int :=
  match ovpn.mode with
  | .mp => ovpn_peer_del_mp hp ovpn ref reason
  | .p2p => ovpn_peer_del_p2p ovpn ref reason

/-- peer.c `ovpn_peer_del_nolock`: same dispatch, locks already held by the
keepalive worker. -/
def ovpn_peer_del_nolock (hp : HashParams) (ovpn : OvpnStruct)
    (ref : PeerRef) (reason : OvpnDelPeerReason) : OvpnStruct × Int :=
  match ovpn.mode with
  | .mp => ovpn_peer_del_mp hp ovpn ref reason
  | .p2p => ovpn_peer_del_p2p ovpn ref reason

/-- peer.c `ovpn_peer_reset_sockaddr`: build a fresh binding from the
sockaddr and optionally install the caller-preserved local address. -/
def ovpn_peer_reset_sockaddr (p : OvpnPeer) (ss : OvpnSockaddr)
    (localIp : Option Nat) : OvpnPeer :=
  let bind := ovpn_bind_from_sockaddr ss
  let bind2 :=
    match localIp with
    | some ip => { bind with localIp := ip }
    | none => bind
  { p with bind := some bind2 }

/-- peer.c `ovpn_peer_float`: nothing happens without a current binding,
for a non-IP packet (family switch default) or when the packet source
already matches the binding. Otherwise the peer's binding is replaced by
one built from the packet source (keeping the learned local address when
the family is unchanged) and, in MP mode only, its transport-address hash
entry is re-inserted under the new key; `by_id` and the VPN-address entries
are untouched. -/
def ovpn_peer_float (hp : HashParams) (ovpn : OvpnStruct) (ref : PeerRef)
    (src : Option OvpnSockaddr) : OvpnStruct :=
  match ovpn.store ref with
  | none => ovpn
  | some peer =>
    match peer.bind with
    | none => ovpn
    | some bind =>
      match src with
      | none => ovpn
      | some ss =>
        if ovpn_bind_skb_src_match (some bind) ss then ovpn
        else
          let localIp :=
            if bind.remote.family = ss.family then some bind.localIp else none
          let peer2 := ovpn_peer_reset_sockaddr peer ss localIp
          let st2 := { ovpn with store := storeSet ovpn.store ref peer2 }
          if ovpn.mode = .mp then
            { st2 with
              peers :=
                { st2.peers with
                  by_transp_addr :=
                    bucketAddHead
                      (bucketRemove st2.peers.by_transp_addr ref)
                      (hp.hTr ss) ref } }
          else st2

/-! ## Keepalive scheduler (peer.c) -/

/-- What one keepalive pass over a peer did: nothing, deleted the expired
peer, or emitted one keepalive payload (`ovpn_xmit_special` with the
16-byte keepalive message, through the normal outbound path). -/
inductive OvpnKaAction
  | idle
  | expired
  | keepalive
  deriving DecidableEq, Repr

/-- peer.c `ovpn_peer_keepalive_set`: store the configuration and reset
both timers from `now` (`ktime_get_real_seconds()`); the worker is then
kicked to recompute its delay. -/
def ovpn_peer_keepalive_set (peer : OvpnPeer) (interval timeout : Nat)
    (now : Int) : OvpnPeer :=
  { peer with
    keepalive_interval := interval,
    last_sent := now,
    keepalive_xmit_exp := now + interval,
    keepalive_timeout := timeout,
    last_recv := now,
    keepalive_recv_exp := now + timeout }

/-- The transmit-keepalive half of `ovpn_peer_keepalive_work_single`, after
the receive timer did not expire: three-way branch on
`now - last_sent` against the interval and on `keepalive_xmit_exp`; when
both say expired, one keepalive is emitted and the next transmit check is
`now + interval`. `last_sent` is not written here. `peer1` carries any
receive-expiry update made by the first half and is committed to the
heap. -/
def ovpn_keepalive_xmit_half (ovpn : OvpnStruct) (ref : PeerRef)
    (peer1 : OvpnPeer) (next1 : Int) (now : Int) :
    OvpnStruct × OvpnKaAction × Int :=
  let interval : Int := peer1.keepalive_interval
  let delta := now - peer1.last_sent
  if delta < interval then
    let peer2 := { peer1 with keepalive_xmit_exp := now + interval - delta }
    ({ ovpn with store := storeSet ovpn.store ref peer2 }, .idle,
      if next1 < peer2.keepalive_xmit_exp then next1
      else peer2.keepalive_xmit_exp)
  else if peer1.keepalive_xmit_exp > now then
    ({ ovpn with store := storeSet ovpn.store ref peer1 }, .idle,
      if next1 < peer1.keepalive_xmit_exp then next1
      else peer1.keepalive_xmit_exp)
  else
    ({ ovpn with store := storeSet ovpn.store ref peer1 }, .keepalive,
      if next1 < now + interval then next1 else now + interval)

/-- peer.c `ovpn_peer_keepalive_work_single`. The C function receives a
peer pointer and immediately takes `peer->lock` and reads
`peer->keepalive_timeout`; a NULL peer is therefore a NULL-pointer
dereference, modelled as `none`. With both timers configured: the receive
timer may update the receive expiry, may find the peer dead (delete it
with reason `Expired` and return 0), else the transmit half runs and the
minimum of the two next-fire times is returned. -/
def ovpn_peer_keepalive_work_single (hp : HashParams) (ovpn : OvpnStruct)
    (peerRef : Option PeerRef) (now : Int) :
    Option (OvpnStruct × OvpnKaAction × Int) :=
  match peerRef with
  | none => none
  | some ref =>
    match ovpn.store ref with
    | none => none
    | some peer =>
      if peer.keepalive_timeout = 0 ∨ peer.keepalive_interval = 0 then
        some (ovpn, .idle, 0)
      else
        let timeout : Int := peer.keepalive_timeout
        let delta := now - peer.last_recv
        if delta < timeout then
          let peer1 := { peer with keepalive_recv_exp := now + timeout - delta }
          some (ovpn_keepalive_xmit_half ovpn ref peer1
            peer1.keepalive_recv_exp now)
        else if peer.keepalive_recv_exp > now then
          some (ovpn_keepalive_xmit_half ovpn ref peer
            peer.keepalive_recv_exp now)
        else
          some ((ovpn_peer_del_nolock hp ovpn ref .expired).1, .expired, 0)

/-- peer.c `ovpn_peer_keepalive_work_p2p`: under the instance lock, run the
single-peer pass on the singleton pointer — passed to
`ovpn_peer_keepalive_work_single` without a NULL check. -/
def ovpn_peer_keepalive_work_p2p (hp : HashParams) (ovpn : OvpnStruct)
    (now : Int) : Option (OvpnStruct × OvpnKaAction × Int) :=
  ovpn_peer_keepalive_work_single hp ovpn ovpn.peer now

/-! ## Registry theorems -/

/-- C7: adding a peer whose id is already present fails with -EEXIST
(`AlreadyExists`) and returns the registry exactly as it was: no index
gains or loses an entry from the failed call. -/
theorem peer_add_duplicate_id_rejected (hp : HashParams) (ovpn : OvpnStruct)
    (refNew : PeerRef) (pNew : OvpnPeer) (r : PeerRef)
    (hmode : ovpn.mode = .mp)
    (hstore : ovpn.store refNew = some pNew)
    (hdup : ovpn_peer_get_by_id hp ovpn pNew.id = some r) :
    ovpn_peer_add hp ovpn refNew = (ovpn, -17) := by
  unfold ovpn_peer_add
  rw [hmode]
  unfold ovpn_peer_add_mp
  rw [hstore]
  dsimp only
  rw [hdup]

/-- A trivial bucket-choice function (all keys share one bucket), used for
concrete registry states. -/
def hpZero : HashParams := ⟨fun _ => 0, fun _ => 0, fun _ => 0, fun _ => 0⟩

/-- A peer record with every field zeroed / empty. -/
def basePeer : OvpnPeer := ⟨0, 0, 0, none, 0, 0, 0, 0, 0, 0, none⟩

/-- A two-object heap: ref 0 is a hashed peer with id 5; ref 1 is a freshly
constructed, not-yet-hashed peer with the same id 5. -/
def ovpnDupId : OvpnStruct :=
  ⟨.mp,
    fun r =>
      if r = 0 then some { basePeer with id := 5 }
      else if r = 1 then
        some { basePeer with id := 5, bind := some ⟨.v4 9 9, 0⟩ }
      else none,
    ⟨fun b => if b = 0 then [0] else [], fun _ => [], fun _ => [],
      fun _ => []⟩,
    none⟩

/-- C7 witness: the duplicate-add theorem on the concrete registry: adding
ref 1 (id 5) while ref 0 (id 5) is hashed fails with -EEXIST and leaves
the registry untouched. -/
theorem peer_add_duplicate_id_rejected_witness :
    ovpnDupId.mode = .mp
    ∧ ovpnDupId.store 1
        = some { basePeer with id := 5, bind := some ⟨.v4 9 9, 0⟩ }
    ∧ ovpn_peer_get_by_id hpZero ovpnDupId 5 = some 0
    ∧ ovpn_peer_add hpZero ovpnDupId 1 = (ovpnDupId, -17) :=
  ⟨rfl, rfl, rfl,
    peer_add_duplicate_id_rejected hpZero ovpnDupId 1
      { basePeer with id := 5, bind := some ⟨.v4 9 9, 0⟩ } 0 rfl rfl rfl⟩

/-- C9: a transport-address lookup returns a peer only when that peer's
current binding's remote address and port equal the packet's source
address and port — a stale hash position alone can never produce a peer
whose current binding does not match the packet. Holds in both MP and P2P
mode, for every registry state and bucket-choice function. -/
theorem transp_lookup_matches_current_binding (hp : HashParams)
    (ovpn : OvpnStruct) (src : Option OvpnSockaddr) (r : PeerRef)
    (h : ovpn_peer_get_by_transp_addr hp ovpn src = some r) :
    ∃ ss p b, src = some ss ∧ ovpn.store r = some p
      ∧ p.bind = some b ∧ b.remote = ss := by
  unfold ovpn_peer_get_by_transp_addr at h
  rcases src with _ | ss
  · exact absurd h (by simp)
  · refine ⟨ss, ?_⟩
    dsimp only at h
    split_ifs at h with hm
    · unfold ovpn_peer_get_by_transp_addr_p2p at h
      rcases hpeer : ovpn.peer with _ | r2 <;> rw [hpeer] at h
      · exact absurd h (by simp)
      · dsimp only at h
        rcases hst : ovpn.store r2 with _ | q <;> rw [hst] at h
        · exact absurd h (by simp)
        · dsimp only at h
          split_ifs at h with hmatch
          obtain ⟨b, hb, hr⟩ := (ovpn_peer_transp_match_iff q ss).mp hmatch
          obtain rfl : r2 = r := Option.some.inj h
          exact ⟨q, b, rfl, hst, hb, hr⟩
    · have hpred := List.find?_some h
      rcases hst : ovpn.store r with _ | q <;> rw [hst] at hpred
      · exact absurd hpred (by simp)
      · obtain ⟨b, hb, hr⟩ := (ovpn_peer_transp_match_iff q ss).mp hpred
        exact ⟨q, b, rfl, rfl, hb, hr⟩

/-- A single-peer MP registry whose peer (ref 0) is bound to 10.0.0.1:100
(collapsed to `v4 10 100`) and hashed in the transport table. -/
def ovpnOnePeer : OvpnStruct :=
  ⟨.mp,
    fun r =>
      if r = 0 then
        some { basePeer with id := 1, bind := some ⟨.v4 10 100, 0⟩ }
      else none,
    ⟨fun b => if b = 0 then [0] else [], fun _ => [], fun _ => [],
      fun b => if b = 0 then [0] else []⟩,
    none⟩

/-- C9 witness: the theorem applied to a concrete lookup that does return a
peer: the source v4 10:100 finds ref 0, whose current binding matches. -/
theorem transp_lookup_matches_current_binding_witness :
    ovpn_peer_get_by_transp_addr hpZero ovpnOnePeer (some (.v4 10 100))
        = some 0
    ∧ ∃ ss p b, (some (OvpnSockaddr.v4 10 100)) = some ss
        ∧ ovpnOnePeer.store 0 = some p ∧ p.bind = some b ∧ b.remote = ss :=
  ⟨rfl,
    transp_lookup_matches_current_binding hpZero ovpnOnePeer
      (some (.v4 10 100)) 0 rfl⟩

/-- C10: in point-to-point mode, when no peer is installed
(`ovpn->peer == NULL`), the keepalive sweep hands the NULL pointer straight
to `ovpn_peer_keepalive_work_single`, which dereferences it
(`spin_lock_bh(&peer->lock)`, reading `peer->keepalive_timeout`): the
sweep does not complete safely — the crash is the `none` result. -/
theorem keepalive_p2p_null_peer_crashes (hp : HashParams)
    (ovpn : OvpnStruct) (now : Int) (hnone : ovpn.peer = none) :
    ovpn_peer_keepalive_work_p2p hp ovpn now = none := by
  unfold ovpn_peer_keepalive_work_p2p ovpn_peer_keepalive_work_single
  rw [hnone]

/-- An idle P2P instance with no peer installed. -/
def ovpnP2pEmpty : OvpnStruct :=
  ⟨.p2p, fun _ => none, ⟨fun _ => [], fun _ => [], fun _ => [], fun _ => []⟩,
    none⟩

/-- C10 witness: the sweep over the concrete empty P2P instance hits the
NULL dereference. -/
theorem keepalive_p2p_null_peer_crashes_witness :
    ovpnP2pEmpty.peer = none
    ∧ ovpn_peer_keepalive_work_p2p hpZero ovpnP2pEmpty 100 = none :=
  ⟨rfl, keepalive_p2p_null_peer_crashes hpZero ovpnP2pEmpty 100 rfl⟩

/-- C6 (amended): with both keepalive values configured, the receive
timeout not expired, and the transmit timer in its steady state
(`keepalive_xmit_exp = last_sent + interval`, as `ovpn_peer_keepalive_set`
establishes and the sweep maintains), a sweep at a time with
`now - last_sent ≥ interval` emits exactly one keepalive through the
outbound path and schedules the next transmit check at `now + interval` —
but it does not reset `last_sent`: the stored peer keeps its old
`last_sent`, only the receive expiry having been refreshed. -/
theorem keepalive_sweep_sends_one_keepalive (hp : HashParams)
    (ovpn : OvpnStruct) (ref : PeerRef) (peer : OvpnPeer) (now : Int)
    (hstore : ovpn.store ref = some peer)
    (hint : peer.keepalive_interval ≠ 0)
    (htout : peer.keepalive_timeout ≠ 0)
    (hrecv : now - peer.last_recv < (peer.keepalive_timeout : Int))
    (hsent : (peer.keepalive_interval : Int) ≤ now - peer.last_sent)
    (hexp : peer.keepalive_xmit_exp
      = peer.last_sent + (peer.keepalive_interval : Int)) :
    ovpn_peer_keepalive_work_single hp ovpn (some ref) now =
      some ({ ovpn with
          store := storeSet ovpn.store ref
            { peer with keepalive_recv_exp :=
                peer.last_recv + (peer.keepalive_timeout : Int) } },
        .keepalive,
        if peer.last_recv + (peer.keepalive_timeout : Int)
            < now + (peer.keepalive_interval : Int)
        then peer.last_recv + (peer.keepalive_timeout : Int)
        else now + (peer.keepalive_interval : Int)) := by
  unfold ovpn_peer_keepalive_work_single
  dsimp only
  rw [hstore]
  dsimp only
  rw [if_neg (not_or.mpr ⟨htout, hint⟩)]
  rw [if_pos hrecv]
  unfold ovpn_keepalive_xmit_half
  dsimp only
  rw [if_neg (by omega : ¬ (now - peer.last_sent
    < (peer.keepalive_interval : Int)))]
  rw [if_neg (by omega : ¬ (peer.keepalive_xmit_exp > now))]
  have harith : now + (peer.keepalive_timeout : Int) - (now - peer.last_recv)
      = peer.last_recv + (peer.keepalive_timeout : Int) := by ring
  simp only [harith]

/-- The spec's transmit scenario: a peer configured with
`keepalive_set(interval 10, timeout 60)` at time 0. -/
def peerKa : OvpnPeer := ovpn_peer_keepalive_set basePeer 10 60 0

/-- A P2P instance holding `peerKa` as its singleton. -/
def ovpnKa : OvpnStruct :=
  ⟨.p2p, fun r => if r = 0 then some peerKa else none,
    ⟨fun _ => [], fun _ => [], fun _ => [], fun _ => []⟩, some 0⟩

/-- C6 witness: the amended theorem on the spec's scenario — interval 10,
timeout 60, 11 seconds of silence: one keepalive is emitted, `last_sent`
stays 0, and the next transmit check lands at 11 + 10 = 21. -/
theorem keepalive_sweep_sends_one_keepalive_witness :
    ovpnKa.store 0 = some peerKa
    ∧ peerKa.keepalive_interval ≠ 0
    ∧ peerKa.keepalive_timeout ≠ 0
    ∧ (11 : Int) - peerKa.last_recv < (peerKa.keepalive_timeout : Int)
    ∧ (peerKa.keepalive_interval : Int) ≤ (11 : Int) - peerKa.last_sent
    ∧ peerKa.keepalive_xmit_exp
        = peerKa.last_sent + (peerKa.keepalive_interval : Int)
    ∧ ovpn_peer_keepalive_work_single hpZero ovpnKa (some 0) 11 =
        some ({ ovpnKa with
            store := storeSet ovpnKa.store 0
              { peerKa with keepalive_recv_exp :=
                  peerKa.last_recv + (peerKa.keepalive_timeout : Int) } },
          .keepalive,
          if peerKa.last_recv + (peerKa.keepalive_timeout : Int)
              < (11 : Int) + (peerKa.keepalive_interval : Int)
          then peerKa.last_recv + (peerKa.keepalive_timeout : Int)
          else (11 : Int) + (peerKa.keepalive_interval : Int)) :=
  ⟨rfl, by decide, by decide, by decide, by decide, by decide,
    keepalive_sweep_sends_one_keepalive hpZero ovpnKa 0 peerKa 11 rfl
      (by decide) (by decide) (by decide) (by decide) (by decide)⟩

/-- C6 counterexample: on the spec's own scenario (interval 10, timeout 60,
sweep at t = 11 with nothing transmitted), the sweep does emit the
keepalive but the stored peer's `last_sent` is still 0, not 11: the sweep
does not reset `last_sent = now`. -/
theorem keepalive_sweep_last_sent_counterexample :
    ((ovpn_peer_keepalive_work_single hpZero ovpnKa (some 0) 11).map
        (fun x => (x.2.1, (x.1.store 0).map OvpnPeer.last_sent)))
      = some (.keepalive, some 0)
    ∧ (0 : Int) ≠ 11 := by
  constructor
  · rfl
  · decide

theorem mem_bucketRemove {t : Nat → List PeerRef} {r x : PeerRef} {b : Nat}
    (h : x ∈ bucketRemove t r b) : x ≠ r := by
  unfold bucketRemove at h
  simpa using (List.of_mem_filter h)

/-- C8 (amended): after a successful `delete(peer, reason)`, a second
delete of the same peer is a state no-op that propagates nothing — the
registry is returned unchanged, the recorded `delete_reason` stays the
first call's — but it reports -ENOENT rather than success. Holds in both
modes. -/
theorem peer_del_idempotent (hp : HashParams) (ovpn : OvpnStruct)
    (ref : PeerRef) (p : OvpnPeer) (reason1 reason2 : OvpnDelPeerReason)
    (st1 : OvpnStruct)
    (hstore : ovpn.store ref = some p)
    (hfirst : ovpn_peer_del hp ovpn ref reason1 = (st1, 0)) :
    ovpn_peer_del hp st1 ref reason2 = (st1, -2)
    ∧ st1.store ref = some { p with delete_reason := some reason1 } := by
  unfold ovpn_peer_del at hfirst
  rcases hmode : ovpn.mode with _ | _
  · -- P2P instance
    rw [hmode] at hfirst
    dsimp only at hfirst
    unfold ovpn_peer_del_p2p at hfirst
    rcases hpr : ovpn.peer with _ | tmp <;> rw [hpr] at hfirst
    · exact absurd hfirst (by simp)
    · dsimp only at hfirst
      split_ifs at hfirst with htmp
      · subst htmp
        rw [hstore] at hfirst
        dsimp only at hfirst
        have hst1 := congrArg Prod.fst hfirst
        dsimp only at hst1
        subst hst1
        refine ⟨?_, by simp [storeSet]⟩
        unfold ovpn_peer_del
        dsimp only
        rw [hmode]
        rfl
      · exact absurd hfirst (by simp)
  · -- MP instance
    rw [hmode] at hfirst
    dsimp only at hfirst
    unfold ovpn_peer_del_mp at hfirst
    rw [hstore] at hfirst
    dsimp only at hfirst
    rcases hget : ovpn_peer_get_by_id hp ovpn p.id with _ | tmp <;>
      rw [hget] at hfirst
    · exact absurd hfirst (by simp)
    · dsimp only at hfirst
      split_ifs at hfirst with htmp
      · have hunhash : ovpn_peer_unhash ovpn ref reason1 =
            { mode := ovpn.mode,
              store := storeSet ovpn.store ref
                { p with delete_reason := some reason1 },
              peers :=
                ⟨bucketRemove ovpn.peers.by_id ref,
                  bucketRemove ovpn.peers.by_vpn_addr4 ref,
                  bucketRemove ovpn.peers.by_vpn_addr6 ref,
                  bucketRemove ovpn.peers.by_transp_addr ref⟩,
              peer := ovpn.peer } := by
          unfold ovpn_peer_unhash
          rw [hstore]
        rw [hunhash] at hfirst
        have hst1 := congrArg Prod.fst hfirst
        dsimp only at hst1
        subst hst1
        refine ⟨?_, by simp [storeSet]⟩
        unfold ovpn_peer_del
        dsimp only
        rw [hmode]
        dsimp only
        unfold ovpn_peer_del_mp
        dsimp only [storeSet]
        rw [if_pos rfl]
        dsimp only
        unfold ovpn_peer_get_by_id
        dsimp only
        rw [if_neg (by decide : ¬ (OvpnMode.mp = OvpnMode.p2p))]
        rcases hg2 : (bucketRemove ovpn.peers.by_id ref (hp.hId p.id)).find?
            (fun r =>
              match storeSet ovpn.store ref
                  { p with delete_reason := some reason1 } r with
              | some q => decide (q.id = p.id)
              | none => false) with _ | tmp2
        · rfl
        · dsimp only
          have hne : tmp2 ≠ ref :=
            mem_bucketRemove (List.mem_of_find?_eq_some hg2)
          rw [if_neg hne]
      · exact absurd hfirst (by simp)

/-- The single peer of `ovpnOnePeer`. -/
def peerOne : OvpnPeer := { basePeer with id := 1, bind := some ⟨.v4 10 100, 0⟩ }

/-- C8 witness: deleting the only peer of the concrete registry succeeds;
the theorem then gives that a second delete (with a different reason) is a
state no-op returning -ENOENT and that the recorded reason stays the first
one's. -/
theorem peer_del_idempotent_witness :
    ovpnOnePeer.store 0 = some peerOne
    ∧ ovpn_peer_del hpZero ovpnOnePeer 0 .userspace
        = ((ovpn_peer_del hpZero ovpnOnePeer 0 .userspace).1, 0)
    ∧ (ovpn_peer_del hpZero (ovpn_peer_del hpZero ovpnOnePeer 0 .userspace).1
          0 .expired
        = ((ovpn_peer_del hpZero ovpnOnePeer 0 .userspace).1, -2)
      ∧ (ovpn_peer_del hpZero ovpnOnePeer 0 .userspace).1.store 0
          = some { peerOne with delete_reason := some .userspace }) :=
  ⟨rfl, rfl,
    peer_del_idempotent hpZero ovpnOnePeer 0 peerOne .userspace .expired
      (ovpn_peer_del hpZero ovpnOnePeer 0 .userspace).1 rfl rfl⟩

/-- C8 counterexample: the second delete of the same peer reports -ENOENT,
not success — deleting an already-deleted peer is a state no-op but it
does report an error to the caller. -/
theorem peer_del_second_reports_error :
    (ovpn_peer_del hpZero (ovpn_peer_del hpZero ovpnOnePeer 0 .userspace).1
        0 .userspace).2 = -2
    ∧ (-2 : Int) ≠ 0 := by
  constructor
  · rfl
  · decide

/-- `find?` returns a designated element when it is in the list, satisfies
the predicate, and is the only element doing so. -/
theorem find?_eq_some_of_unique {α : Type} (l : List α) (pred : α → Bool)
    (a : α) (hmem : a ∈ l) (hpa : pred a = true)
    (huniq : ∀ x ∈ l, pred x = true → x = a) : l.find? pred = some a := by
  induction l with
  | nil => simp at hmem
  | cons x xs ih =>
    by_cases hx : pred x = true
    · have hxa : x = a := huniq x (List.mem_cons_self x xs) hx
      subst hxa
      simp [List.find?_cons_of_pos _ hx]
    · have hxa : x ≠ a := fun h => hx (h ▸ hpa)
      have hmem2 : a ∈ xs := by
        rcases List.mem_cons.mp hmem with h | h
        · exact absurd h.symm hxa
        · exact h
      rw [List.find?_cons_of_neg _ (by simpa using hx)]
      exact ih hmem2 (fun y hy hpy => huniq y (List.mem_cons_of_mem x hy) hpy)

theorem ovpn_peer_reset_sockaddr_fields (p : OvpnPeer) (ss : OvpnSockaddr)
    (lip : Option Nat) :
    (ovpn_peer_reset_sockaddr p ss lip).id = p.id
    ∧ (ovpn_peer_reset_sockaddr p ss lip).vpnAddr4 = p.vpnAddr4
    ∧ (ovpn_peer_reset_sockaddr p ss lip).vpnAddr6 = p.vpnAddr6
    ∧ ∃ b2, (ovpn_peer_reset_sockaddr p ss lip).bind = some b2
        ∧ b2.remote = ss := by
  unfold ovpn_peer_reset_sockaddr ovpn_bind_from_sockaddr
  rcases lip with _ | ip <;> exact ⟨rfl, rfl, rfl, _, rfl, rfl⟩

/-- Normal form of `ovpn_peer_float` in MP mode on a bound peer whose
binding does not match the packet source: the binding is replaced and only
the transport-address index is rehashed. -/
theorem ovpn_peer_float_eq (hp : HashParams) (ovpn : OvpnStruct)
    (ref : PeerRef) (p : OvpnPeer) (bOld : OvpnBind) (newSS : OvpnSockaddr)
    (hmode : ovpn.mode = .mp)
    (hstore : ovpn.store ref = some p)
    (hbind : p.bind = some bOld)
    (hdiff : ovpn_bind_skb_src_match (some bOld) newSS = false) :
    ovpn_peer_float hp ovpn ref (some newSS) =
      { mode := ovpn.mode,
        store := storeSet ovpn.store ref
          (ovpn_peer_reset_sockaddr p newSS
            (if bOld.remote.family = newSS.family then some bOld.localIp
             else none)),
        peers :=
          { by_id := ovpn.peers.by_id,
            by_vpn_addr4 := ovpn.peers.by_vpn_addr4,
            by_vpn_addr6 := ovpn.peers.by_vpn_addr6,
            by_transp_addr :=
              bucketAddHead (bucketRemove ovpn.peers.by_transp_addr ref)
                (hp.hTr newSS) ref },
        peer := ovpn.peer } := by
  unfold ovpn_peer_float
  rw [hstore]
  dsimp only
  rw [hbind]
  dsimp only
  simp only [hdiff, Bool.false_eq_true, if_false]
  rw [if_pos hmode]

/-- C2: floating a peer of a multi-peer registry to a new remote endpoint
(packet source `newSS` that does not match the current binding) preserves
the peer's identity: the id, IPv4-address and IPv6-address indices are
untouched; `lookup_by_id(peer.id)` still returns the same peer object;
`lookup_by_transport_addr` with the old binding's remote returns not-found
(given that no other peer is bound there); `lookup_by_transport_addr` with
the new source returns the peer; and the stored peer keeps its id and VPN
addresses, only its binding now pointing at the new remote. -/
theorem peer_float_preserves_identity (hp : HashParams) (ovpn : OvpnStruct)
    (ref : PeerRef) (p : OvpnPeer) (bOld : OvpnBind) (newSS : OvpnSockaddr)
    (hmode : ovpn.mode = .mp)
    (hstore : ovpn.store ref = some p)
    (hbind : p.bind = some bOld)
    (hdiff : ovpn_bind_skb_src_match (some bOld) newSS = false)
    (hinb : ref ∈ ovpn.peers.by_id (hp.hId p.id))
    (huniq : ∀ r q, ovpn.store r = some q → q.id = p.id → r = ref)
    (hnoold : ∀ r q, r ≠ ref → ovpn.store r = some q →
      ovpn_peer_transp_match q bOld.remote = false) :
    (ovpn_peer_float hp ovpn ref (some newSS)).peers.by_id
        = ovpn.peers.by_id
    ∧ (ovpn_peer_float hp ovpn ref (some newSS)).peers.by_vpn_addr4
        = ovpn.peers.by_vpn_addr4
    ∧ (ovpn_peer_float hp ovpn ref (some newSS)).peers.by_vpn_addr6
        = ovpn.peers.by_vpn_addr6
    ∧ ovpn_peer_get_by_id hp (ovpn_peer_float hp ovpn ref (some newSS)) p.id
        = some ref
    ∧ ovpn_peer_get_by_transp_addr hp (ovpn_peer_float hp ovpn ref (some newSS))
        (some bOld.remote) = none
    ∧ ovpn_peer_get_by_transp_addr hp (ovpn_peer_float hp ovpn ref (some newSS))
        (some newSS) = some ref
    ∧ (∃ q, (ovpn_peer_float hp ovpn ref (some newSS)).store ref = some q
        ∧ q.id = p.id ∧ q.vpnAddr4 = p.vpnAddr4 ∧ q.vpnAddr6 = p.vpnAddr6
        ∧ ∃ b2, q.bind = some b2 ∧ b2.remote = newSS) := by
  have hfl := ovpn_peer_float_eq hp ovpn ref p bOld newSS hmode hstore hbind hdiff
  set p2 := ovpn_peer_reset_sockaddr p newSS
    (if bOld.remote.family = newSS.family then some bOld.localIp else none)
    with hp2
  obtain ⟨hid2, hv42, hv62, b2, hb2, hb2r⟩ :=
    ovpn_peer_reset_sockaddr_fields p newSS
      (if bOld.remote.family = newSS.family then some bOld.localIp else none)
  rw [← hp2] at hid2 hv42 hv62 hb2
  have hold_ne : bOld.remote ≠ newSS := by
    intro h
    rw [(ovpn_bind_skb_src_match_iff bOld newSS).mpr h] at hdiff
    exact Bool.true_eq_false.mp hdiff
  have hmatch_new : ovpn_peer_transp_match p2 newSS = true :=
    (ovpn_peer_transp_match_iff p2 newSS).mpr ⟨b2, hb2, hb2r⟩
  have hmatch_old : ovpn_peer_transp_match p2 bOld.remote = false := by
    rcases hmo : ovpn_peer_transp_match p2 bOld.remote with _ | _
    · rfl
    · obtain ⟨b3, hb3, hb3r⟩ := (ovpn_peer_transp_match_iff p2 bOld.remote).mp hmo
      rw [hb2] at hb3
      obtain rfl : b2 = b3 := Option.some.inj hb3
      exact absurd (hb2r ▸ hb3r).symm hold_ne
  refine ⟨by rw [hfl], by rw [hfl], by rw [hfl], ?_, ?_, ?_, ?_⟩
  · -- lookup by id still finds the same peer object
    rw [hfl]
    unfold ovpn_peer_get_by_id
    rw [if_neg (by rw [hmode]; simp)]
    dsimp only
    refine find?_eq_some_of_unique _ _ ref hinb ?_ ?_
    · simp [storeSet, hid2]
    · intro x hx hpx
      by_cases hxr : x = ref
      · exact hxr
      · simp only [storeSet, if_neg hxr] at hpx
        rcases hq : ovpn.store x with _ | q <;> rw [hq] at hpx
        · simp at hpx
        · exact huniq x q hq (by simpa using hpx)
  · -- the old transport address no longer finds anyone
    rw [hfl]
    unfold ovpn_peer_get_by_transp_addr
    dsimp only
    rw [if_neg (by rw [hmode]; simp)]
    rw [List.find?_eq_none]
    intro x hx
    unfold bucketAddHead at hx
    have hxcase : x = ref ∨ x ∈ bucketRemove ovpn.peers.by_transp_addr ref
        (hp.hTr bOld.remote) := by
      by_cases hk : hp.hTr bOld.remote = hp.hTr newSS
      · rw [if_pos hk] at hx
        rcases List.mem_cons.mp hx with h | h
        · exact Or.inl h
        · exact Or.inr h
      · rw [if_neg hk] at hx
        exact Or.inr hx
    rcases hxcase with rfl | hxm
    · simp [storeSet, hmatch_old]
    · have hxr : x ≠ ref := mem_bucketRemove hxm
      simp only [storeSet, if_neg hxr]
      rcases hq : ovpn.store x with _ | q
      · simp
      · simp [hnoold x q hxr hq]
  · -- the new transport address finds the peer
    rw [hfl]
    unfold ovpn_peer_get_by_transp_addr
    dsimp only
    rw [if_neg (by rw [hmode]; simp)]
    unfold bucketAddHead
    rw [if_pos rfl]
    rw [List.find?_cons_of_pos _ (by simp [storeSet, hmatch_new])]
  · -- the stored peer keeps its identity, only the binding moved
    rw [hfl]
    exact ⟨p2, by simp [storeSet], hid2, hv42, hv62, b2, hb2, hb2r⟩

/-- A second peer, bound to a different remote endpoint. -/
def peerTwo : OvpnPeer := { basePeer with id := 2, bind := some ⟨.v4 20 200, 0⟩ }

/-- A two-peer MP registry: ref 0 (`peerOne`, bound to v4 10:100) and ref 1
(`peerTwo`, bound to v4 20:200), both hashed by id and by transport
address. -/
def ovpnFloat : OvpnStruct :=
  ⟨.mp,
    fun r =>
      if r = 0 then some peerOne
      else if r = 1 then some peerTwo
      else none,
    ⟨fun b => if b = 0 then [0, 1] else [], fun _ => [], fun _ => [],
      fun b => if b = 0 then [0, 1] else []⟩,
    none⟩

/-- C2 witness: floating ref 0 from v4 10:100 to v4 30:300 on the concrete
two-peer registry: the id lookup still returns ref 0, the old address finds
nobody, the new address finds ref 0. -/
theorem peer_float_preserves_identity_witness :
    ovpnFloat.store 0 = some peerOne
    ∧ peerOne.bind = some ⟨.v4 10 100, 0⟩
    ∧ ovpn_bind_skb_src_match (some (⟨.v4 10 100, 0⟩ : OvpnBind))
        (.v4 30 300) = false
    ∧ ovpn_peer_get_by_id hpZero
        (ovpn_peer_float hpZero ovpnFloat 0 (some (.v4 30 300))) peerOne.id
        = some 0
    ∧ ovpn_peer_get_by_transp_addr hpZero
        (ovpn_peer_float hpZero ovpnFloat 0 (some (.v4 30 300)))
        (some ((⟨.v4 10 100, 0⟩ : OvpnBind).remote)) = none
    ∧ ovpn_peer_get_by_transp_addr hpZero
        (ovpn_peer_float hpZero ovpnFloat 0 (some (.v4 30 300)))
        (some (.v4 30 300)) = some 0
    ∧ (ovpn_peer_float hpZero ovpnFloat 0 (some (.v4 30 300))).peers.by_id
        = ovpnFloat.peers.by_id :=
  have huniq : ∀ r q, ovpnFloat.store r = some q → q.id = peerOne.id →
      r = 0 := by
    intro r q hq hid
    by_cases h0 : r = 0
    · exact h0
    · by_cases h1 : r = 1
      · exfalso
        rw [h1] at hq
        have hq2 : q = peerTwo :=
          Option.some.inj
            (hq.symm.trans (show ovpnFloat.store 1 = some peerTwo from rfl))
        subst hq2
        exact absurd hid (by decide)
      · exfalso
        have hnone : ovpnFloat.store r = none := by
          simp [ovpnFloat, h0, h1]
        rw [hnone] at hq
        exact Option.noConfusion hq
  have hnoold : ∀ r q, r ≠ 0 → ovpnFloat.store r = some q →
      ovpn_peer_transp_match q ((⟨.v4 10 100, 0⟩ : OvpnBind).remote)
        = false := by
    intro r q hr hq
    by_cases h1 : r = 1
    · rw [h1] at hq
      have hq2 : q = peerTwo :=
        Option.some.inj
          (hq.symm.trans (show ovpnFloat.store 1 = some peerTwo from rfl))
      subst hq2
      decide
    · exfalso
      have hnone : ovpnFloat.store r = none := by
        simp [ovpnFloat, hr, h1]
      rw [hnone] at hq
      exact Option.noConfusion hq
  have h := peer_float_preserves_identity hpZero ovpnFloat 0 peerOne
    ⟨.v4 10 100, 0⟩ (.v4 30 300) rfl rfl rfl (by decide) (by decide)
    huniq hnoold
  ⟨rfl, rfl, by decide, h.2.2.2.1, h.2.2.2.2.1, h.2.2.2.2.2.1, h.1⟩
